import Mathlib

/-!
Verification of the scene-interpreter core of `gal.js` (class `GalEngine`).

The engine's control flow in the source is a chain of synchronous tail
calls (`next()` → `_execute(cmd)` → command handler → `next()` …),
interrupted by `setTimeout` registrations and external DOM events
(clicks, choice-button clicks).  We embed it as:

* `Engine`     — the mutable fields of a `GalEngine` instance (plus a
                 virtual clock / timer queue for `setTimeout`, and two
                 instrumentation logs: `warns` for `console.warn` and
                 `cbFired` recording which `_typeText` completion
                 callback fired);
* `SyncOp`     — one link of the synchronous tail-call chain;
* `syncStep`   — executes exactly one link, returning the possibly
                 updated engine and the next link, if any;
* `runSync`    — fuel-bounded driver of a synchronous chain (the chain
                 can genuinely diverge in JS, e.g. a `label`/`jump` loop
                 overflows the stack, hence the fuel);
* `pump`       — the event loop: repeatedly fires the earliest pending
                 timer (`setTimeout` order: due time, then registration
                 order).

DOM and CSS effects are projected to the engine-visible data they carry
(`nameLabel`/`textContent` text, the rendered choice list, background
visibility/image, character records with an `el` attachment flag).
Audio playback is external; whether `audio.play()` rejects is modelled
by the oracle field `audioFails`, consumed through `tryPlay`.
-/

set_option maxRecDepth 10000

namespace Gal

/-- One entry of a `choice` instruction: `{text, goto}`.  An absent
`goto` is represented by `""` (the only falsy JS string).  The optional
`callback` closure stored on a choice is an embedded host side effect,
not interpreter state, and is not modelled. -/
structure ChoiceItem where
  text : String
  goto : String
  deriving Repr, DecidableEq

/-- Script instructions (the `cmd.type` tags of `gal.js`).  Absent
string fields are `""` (JS falsy); absent numeric fields are `none`,
while `some 0` models an explicit `0` (also falsy in JS, which matters
for the `cmd.ms || 500` / `cmd.wait || transition` fallbacks).  The
`bg` field named `show` in the source is `sh` here (`show` is a Lean
keyword); `none` means the key is absent (`'show' in cmd` is false).
`unknown` stands for any unrecognized `cmd.type` (the `default:` branch
of `_execute`). -/
inductive Instr where
  | label (id : String)
  | say (who : String) (name : String) (text : String)
  | bg (sh : Option Bool) (src : String) (wait : Option Nat)
  | char (id : String) (action : String) (state : String) (side : String) (wait : Option Nat)
  | choice (choices : List ChoiceItem)
  | wait (ms : Option Nat)
  | jump (tgt : String)
  | bgm (action : String) (id : String) (loop : Bool)
  | «end»
  | unknown
  deriving Repr, DecidableEq

/-- One link of the engine's synchronous tail-call chain.
`next`/`exec` are `next()` and `_execute(cmd)`; `click` is the
container click listener installed by `_bindGlobalKeys`; `selectChoice i`
is the click listener of the `i`-th choice button; `tick` is the body of
the typewriter timer of `_typeText` and `cb` the completion callback
closure built in `_cmdSay` (`hc`/`he` are its captured
`hasChoiceAfter`/`hasEndAfter` flags, `gen` identifies which `_typeText`
invocation the closure belongs to); `removeChar` is the element-removal
timeout of `_hideChar`. -/
inductive SyncOp where
  | next
  | exec (cmd : Instr)
  | click
  | selectChoice (i : Nat)
  | tick (text : String) (i : Nat) (hc : Bool) (he : Bool) (gen : Nat)
  | cb (hc : Bool) (he : Bool) (gen : Nat)
  | removeChar (id : String)
  deriving Repr, DecidableEq

/-- A character resource: display name and ordered state table
(`Object.keys` order of the source literal). -/
structure CharRes where
  name : String
  states : List (String × String)
  deriving Repr, DecidableEq

/-- The `this.resources` tables, as insertion-ordered association lists. -/
structure Resources where
  characters : List (String × CharRes)
  backgrounds : List (String × String)
  bgm : List (String × String)
  deriving Repr, DecidableEq

/-- Runtime per-character record `this.state.chars[id]`.  `el` models
whether the character's `<img>` element is currently attached to the
layer (created by `_showChar`, detached by `_hideChar`'s timeout). -/
structure CharSt where
  visible : Bool
  state : String
  side : String
  el : Bool
  deriving Repr, DecidableEq

/-- One `setTimeout` registration: absolute due time on the virtual
clock, registration sequence number, and the callback body. -/
structure TimerEntry where
  due : Nat
  seq : Nat
  op : SyncOp
  deriving Repr, DecidableEq

/-- The state of a `GalEngine` instance.  `transition` is
`options.transition`; `nextGen`, `warns` and `cbFired` are
instrumentation (reveal-generation counter, `console.warn` log, log of
fired `_typeText` completion callbacks by generation). -/
structure Engine where
  resources : Resources
  script : List Instr
  labels : List (String × Nat)
  pc : Nat
  running : Bool
  nameLabel : String
  textContent : String
  choicesShown : List ChoiceItem
  waitingForClick : Bool
  endOnClick : Bool
  bgVisible : Bool
  bgImage : String
  chars : List (String × CharSt)
  stateBgm : String
  bgmInit : Bool
  bgmSrc : String
  bgmLoop : Bool
  bgmPaused : Bool
  bgmTime : Nat
  transition : Nat
  audioFails : Bool
  now : Nat
  seq : Nat
  timers : List TimerEntry
  nextGen : Nat
  warns : List String
  cbFired : List Nat
  deriving Repr, DecidableEq

/-- JS `x || d` on an optional numeric field: absent or `0` (falsy)
falls back to the default. -/
def jsOrNat : Option Nat → Nat → Nat
  | none, d => d
  | some 0, d => d
  | some (n+1), _ => n + 1

/-- JS `x || d` on an optional string: absent or `""` falls back. -/
def jsOrStr : Option String → String → String
  | none, d => d
  | some s, d => if s = "" then d else s

/-- Property read on a JS object modelled as an association list where
later writes are consed on the front: the first hit is the latest write. -/
def lookupStr {α : Type} : List (String × α) → String → Option α
  | [], _ => none
  | (k, v) :: rest, key => if k = key then some v else lookupStr rest key

/-- Property write `m[k] = v`. -/
def setChar : List (String × CharSt) → String → CharSt → List (String × CharSt)
  | [], k, v => [(k, v)]
  | (k', v') :: rest, k, v =>
    if k' = k then (k, v) :: rest else (k', v') :: setChar rest k v

/-- `_indexLabels` body: `forEach((cmd, i) => { if (cmd.type === 'label'
&& cmd.id) labels[cmd.id] = i })`.  Writes are consed, so `lookupStr`
sees the last write. -/
def indexLabelsAux : List Instr → Nat → List (String × Nat) → List (String × Nat)
  | [], _, acc => acc
  | c :: rest, i, acc =>
    indexLabelsAux rest (i + 1)
      (match c with
       | .label id => if id = "" then acc else (id, i) :: acc
       | _ => acc)

/-- `_indexLabels()`. -/
def indexLabels (script : List Instr) : List (String × Nat) :=
  indexLabelsAux script 0 []

/-- `id in this.labels` / `this.labels[id]`. -/
def lookupLabel (labels : List (String × Nat)) (id : String) : Option Nat :=
  lookupStr labels id

/-- Offset of the last `label` instruction with id `l` in the script —
the spec's "last occurrence wins" characterization, stated independently
of `indexLabels` so that the two can be compared. -/
def lastLabelOffsetAux : List Instr → Nat → String → Option Nat
  | [], _, _ => none
  | c :: rest, i, l =>
    match lastLabelOffsetAux rest (i + 1) l with
    | some k => some k
    | none => if c = Instr.label l then some i else none

/-- Offset of the last `label l` instruction, if any. -/
def lastLabelOffset (s : List Instr) (l : String) : Option Nat :=
  lastLabelOffsetAux s 0 l

/-- `jumpToLabel(id)`: set `pc` to the stored offset + 1, else
`console.warn('Label not found:', id)` and leave `pc` alone. -/
def jumpToLabel (id : String) (e : Engine) : Engine :=
  match lookupLabel e.labels id with
  | some i => { e with pc := i + 1 }
  | none => { e with warns := ("Label not found: " ++ id) :: e.warns }

/-- `setTimeout(op, d)`: append a timer entry due at `now + d` with the
next registration sequence number. -/
def schedule (d : Nat) (op : SyncOp) (e : Engine) : Engine :=
  { e with timers := e.timers ++ [⟨e.now + d, e.seq, op⟩], seq := e.seq + 1 }

/-- `this._bgmAudio.play()`: resolves normally or rejects; the outcome
is driven by the `audioFails` oracle. -/
def tryPlay (fails : Bool) : Except String Unit :=
  if fails then Except.error "play rejected" else Except.ok ()

/-- `Object.keys(this.resources.characters[id]?.states || {})[0] || null`
(null rendered as `""`). -/
def firstStateKey (chars : List (String × CharRes)) (id : String) : String :=
  match lookupStr chars id with
  | some rc =>
    match rc.states with
    | [] => ""
    | (k, _) :: _ => k
  | none => ""

/-- `_showChar(id, state, side)`: warn and bail if the character is not
in the resource table, else (re)attach the element and merge
`{visible: true, state, side, el}` into `state.chars[id]`.  The image
URL `resChar.states[state] || state` only reaches the `<img>` element
and is not engine state. -/
def showChar (id st sd : String) (e : Engine) : Engine :=
  match lookupStr e.resources.characters id with
  | none => { e with warns := ("角色未定义: " ++ id) :: e.warns }
  | some _ =>
    let old := (lookupStr e.chars id).getD ⟨false, "", "", false⟩
    { e with chars := setChar e.chars id { old with visible := true, state := st, side := sd, el := true } }

/-- `_hideChar(id)`: bail if no element is attached; else mark the
record invisible and schedule removal of the element after the
transition delay. -/
def hideChar (id : String) (e : Engine) : Engine :=
  match lookupStr e.chars id with
  | some c =>
    if c.el then
      let e1 := { e with chars := setChar e.chars id { c with visible := false } }
      schedule e1.transition (.removeChar id) e1
    else e
  | none => e

/-- `_setCharState(id, state)`: warn and bail if the character resource
is missing; else merge `{state}` into `state.chars[id]` (the element
swap, when an element exists, is DOM-only). -/
def setCharState (id st : String) (e : Engine) : Engine :=
  match lookupStr e.resources.characters id with
  | none => { e with warns := ("角色未定义: " ++ id) :: e.warns }
  | some _ =>
    let old := (lookupStr e.chars id).getD ⟨false, "", "", false⟩
    { e with chars := setChar e.chars id { old with state := st } }

/-- `_typeText(text, cb)` up to its synchronous first `tick()` call:
clear the choice box and the text content, then hand control to the
tick body.  The fresh generation number stands for the identity of the
`cb` closure created by this invocation. -/
def typeText (text : String) (hc he : Bool) (e : Engine) : Engine × Option SyncOp :=
  let g := e.nextGen
  ({ e with nextGen := g + 1, choicesShown := [], textContent := "" },
   some (.tick text 0 hc he g))

/-- The display-name resolution of `_cmdSay`: `cmd.who` looked up in the
character table when truthy and present, else `cmd.name || ''` (an
absent `cmd.name` is `nm = ""`). -/
def sayName (who nm : String) (e : Engine) : String :=
  match (if who = "" then none else lookupStr e.resources.characters who) with
  | some rc => rc.name
  | none => nm

/-- `_cmdSay(cmd)`: resolve the display name, capture whether the *next*
instruction is `choice` / `end`, and start the typewriter. -/
def cmdSay (who nm text : String) (e : Engine) : Engine × Option SyncOp :=
  let e1 := { e with nameLabel := sayName who nm e }
  let nxt := e1.script.get? e1.pc
  let hc := match nxt with | some (.choice _) => true | _ => false
  let he := match nxt with | some .«end» => true | _ => false
  typeText text hc he e1

/-- `_cmdBg(cmd)`: apply `show` if the key is present, resolve and set
the background image if `src` is truthy, then
`setTimeout(next, cmd.wait || transition)`. -/
def cmdBg (sh : Option Bool) (src : String) (w : Option Nat) (e : Engine) : Engine × Option SyncOp :=
  let e1 := match sh with
    | some b => { e with bgVisible := b }
    | none => e
  let e2 :=
    if src = "" then e1
    else { e1 with bgImage := jsOrStr (lookupStr e1.resources.backgrounds src) src }
  (schedule (jsOrNat w e2.transition) .next e2, none)

/-- `_cmdChar(cmd)`: dispatch on `cmd.action || 'show'`; the three known
actions schedule `next` after `cmd.wait || transition`, an unknown
action warns and continues synchronously, a falsy `id` continues
synchronously. -/
def cmdChar (id action st sd : String) (w : Option Nat) (e : Engine) : Engine × Option SyncOp :=
  if id = "" then (e, some .next)
  else
    let act := if action = "" then "show" else action
    if act = "show" then
      let st1 := if st = "" then firstStateKey e.resources.characters id else st
      let sd1 := if sd = "" then "center" else sd
      (schedule (jsOrNat w e.transition) .next (showChar id st1 sd1 e), none)
    else if act = "hide" then
      (schedule (jsOrNat w e.transition) .next (hideChar id e), none)
    else if act = "setState" then
      (schedule (jsOrNat w e.transition) .next (setCharState id st e), none)
    else ({ e with warns := ("未知 char action " ++ act) :: e.warns }, some .next)

/-- `_cmdChoice(cmd)`: clear the choice box and render one button per
choice; no continuation and no timer — the engine suspends until a
button fires `selectChoice`. -/
def cmdChoice (cs : List ChoiceItem) (e : Engine) : Engine × Option SyncOp :=
  ({ e with choicesShown := cs }, none)

/-- `_cmdBgm(cmd)`: dispatch on `cmd.action || 'play'`.  `play` lazily
creates the audio handle, sets src/loop, requests playback (a rejection
is caught and logged, nothing escapes) and records `state.bgm = id`;
`stop`/`pause` act on the handle when it exists.  All paths then
`setTimeout(next, 100)`. -/
def cmdBgm (action id : String) (lp : Bool) (e : Engine) : Engine × Option SyncOp :=
  let act := if action = "" then "play" else action
  let e1 :=
    if act = "play" then
      let url := jsOrStr (lookupStr e.resources.bgm id) id
      let e2 := { e with bgmInit := true, bgmSrc := url, bgmLoop := lp }
      let e3 :=
        match tryPlay e2.audioFails with
        | .ok _ => { e2 with bgmPaused := false }
        | .error _ => { e2 with warns := "BGM play failed" :: e2.warns }
      { e3 with stateBgm := id }
    else if act = "stop" then
      if e.bgmInit then { e with bgmPaused := true, bgmTime := 0, stateBgm := "" }
      else { e with stateBgm := "" }
    else if act = "pause" then
      if e.bgmInit then { e with bgmPaused := true } else e
    else e
  (schedule 100 .next e1, none)

/-- `_onEnd()`: clear the name label and show the end-state text. -/
def onEnd (e : Engine) : Engine :=
  { e with nameLabel := "", textContent := "[游戏结束]" }

/-- One link of the synchronous chain, straight from the source:

* `next` — `next()` (lines 209–214): bail when not running, stop at end
  of script, else execute `script[pc++]`;
* `exec` — `_execute(cmd)` (221–245), dispatch by `cmd.type` (a record
  with a missing/falsy `type` is unrepresentable here; `_execute` would
  just `next()` on it);
* `click` — the container click listener (161–165): suppressed while
  choice buttons are rendered, else `next()` — note it consults *only*
  the choice box, never `running === mid-reveal` nor `_waitingForClick`;
* `selectChoice i` — the `i`-th button's listener (389–393), which can
  only fire while that button is rendered;
* `tick` — the typewriter timer body (288–297): fire the callback once
  the index passes the length, else reveal one more character and
  re-arm in 16 ms;
* `cb` — the completion closure of `_cmdSay` (266–279);
* `removeChar` — `_hideChar`'s element-removal timeout (369). -/
def syncStep (op : SyncOp) (e : Engine) : Engine × Option SyncOp :=
  match op with
  | .next =>
    if e.running = false then (e, none)
    else if h : e.script.length ≤ e.pc then ({ e with running := false }, none)
    else ({ e with pc := e.pc + 1 },
          some (.exec (e.script.get ⟨e.pc, Nat.lt_of_not_le h⟩)))
  | .exec cmd =>
    match cmd with
    | .say who nm text => cmdSay who nm text e
    | .bg sh src w => cmdBg sh src w e
    | .char id action st sd w => cmdChar id action st sd w e
    | .choice cs => cmdChoice cs e
    | .wait ms => (schedule (jsOrNat ms 500) .next e, none)
    | .label _ => (e, some .next)
    | .jump tgt => if tgt = "" then (e, some .next) else (jumpToLabel tgt e, some .next)
    | .bgm action id lp => cmdBgm action id lp e
    | .«end» => ({ onEnd e with running := false }, none)
    | .unknown => ({ e with warns := "Unknown cmd" :: e.warns }, some .next)
  | .click =>
    if 0 < e.choicesShown.length then (e, none) else (e, some .next)
  | .selectChoice i =>
    match e.choicesShown.get? i with
    | none => (e, none)
    | some ch =>
      let e1 := { e with choicesShown := [] }
      if ch.goto = "" then (e1, some .next) else (jumpToLabel ch.goto e1, some .next)
  | .tick text i hc he g =>
    if text.length ≤ i then (e, some (.cb hc he g))
    else (schedule 16 (.tick text (i + 1) hc he g) { e with textContent := text.take (i + 1) },
          none)
  | .cb hc he g =>
    let e1 := { e with cbFired := g :: e.cbFired }
    if hc then (e1, some .next)
    else if he then ({ e1 with waitingForClick := true, endOnClick := true }, none)
    else ({ e1 with waitingForClick := true }, none)
  | .removeChar id =>
    (match lookupStr e.chars id with
     | some c => { e with chars := setChar e.chars id { c with el := false } }
     | none => e,
     none)

/-- Drive a synchronous chain to completion (fuel-bounded: in JS a
`label`/`jump` cycle really recurses forever). -/
def runSync : Nat → SyncOp → Engine → Engine
  | 0, _, e => e
  | f + 1, op, e =>
    match syncStep op e with
    | (e', none) => e'
    | (e', some op') => runSync f op' e'

/-- Strict earlier-than on timer entries: earlier due time, or equal due
time and earlier registration (the `setTimeout` firing order). -/
def entryLt (x y : TimerEntry) : Bool :=
  x.due < y.due || (x.due == y.due && x.seq < y.seq)

/-- Remove the earliest pending timer, if any. -/
def popEarliest : List TimerEntry → Option (TimerEntry × List TimerEntry)
  | [] => none
  | t :: ts =>
    match popEarliest ts with
    | none => some (t, [])
    | some (m, rest) => if entryLt m t then some (m, t :: rest) else some (t, ts)

/-- Fire the earliest pending timer: advance the clock to its due time
and run its body as a synchronous chain with fuel `f`. -/
def pumpStep (f : Nat) (e : Engine) : Engine :=
  match popEarliest e.timers with
  | none => e
  | some (t, rest) => runSync f t.op { e with timers := rest, now := t.due }

/-- Run `k` event-loop iterations. -/
def pump : Nat → Nat → Engine → Engine
  | 0, _, e => e
  | k + 1, f, e => pump k f (pumpStep f e)

/-- `start(script)`: install the script, build the label index, reset
`pc`, raise `running`, and run the first `next()` chain. -/
def start (f : Nat) (script : List Instr) (e : Engine) : Engine :=
  runSync f .next
    { e with script := script, labels := indexLabels script, pc := 0, running := true }

/-- `stop()`: clear the running flag (timers are left pending). -/
def stop (e : Engine) : Engine :=
  { e with running := false }

/-- A container click: run the `_onClick` listener chain. -/
def click (f : Nat) (e : Engine) : Engine :=
  runSync f .click e

/-- A `GalEngine` as the constructor leaves it (empty resources, empty
script, default options). -/
def initialEngine : Engine where
  resources := ⟨[], [], []⟩
  script := []
  labels := []
  pc := 0
  running := false
  nameLabel := ""
  textContent := ""
  choicesShown := []
  waitingForClick := false
  endOnClick := false
  bgVisible := true
  bgImage := ""
  chars := []
  stateBgm := ""
  bgmInit := false
  bgmSrc := ""
  bgmLoop := false
  bgmPaused := false
  bgmTime := 0
  transition := 300
  audioFails := false
  now := 0
  seq := 0
  timers := []
  nextGen := 0
  warns := []
  cbFired := []

/-- The operations that set `pc` explicitly: executing a `jump`
instruction, or selecting a choice (whose `goto`, when present, jumps). -/
def isExplicitJump : SyncOp → Bool
  | .exec (.jump _) => true
  | .selectChoice _ => true
  | _ => false

/-- Facts holding after a lone pending typewriter chain (completion
flags both false) has been pumped to its callback: the callback fired
exactly once and the engine suspended waiting for a click. -/
def ChainDone (eIn r : Engine) (g : Nat) : Prop :=
  r.timers = [] ∧ r.cbFired = g :: eIn.cbFired ∧ r.waitingForClick = true ∧
  r.pc = eIn.pc ∧ r.running = eIn.running ∧ r.choicesShown = eIn.choicesShown ∧
  r.script = eIn.script

/-- Facts after two interleaved pending typewriter chains have been
pumped to completion: both callbacks fired, each exactly once. -/
def BothFired (eIn r : Engine) (g0 g1 : Nat) : Prop :=
  (r.cbFired = g0 :: g1 :: eIn.cbFired ∨ r.cbFired = g1 :: g0 :: eIn.cbFired) ∧
  r.timers = [] ∧ r.waitingForClick = true ∧ r.pc = eIn.pc ∧ r.running = eIn.running

/-- Facts after a lone pending typewriter chain whose `say` captured
`hasChoiceAfter = true` has been pumped to its callback: the engine
auto-advanced into the following `choice` instruction without any
external advance signal. -/
def ChoiceEntered (eIn r : Engine) (cs : List ChoiceItem) (g : Nat) : Prop :=
  r.choicesShown = cs ∧ r.pc = eIn.pc + 1 ∧ r.timers = [] ∧ r.running = true ∧
  r.waitingForClick = eIn.waitingForClick ∧ r.cbFired = g :: eIn.cbFired

/-- Two `say` instructions in a row: clicking while the first reveal is
in flight starts the second reveal while the first's timer chain is
still pending. -/
def replaceScript : List Instr := [.say "" "" "ab", .say "" "" "cd"]

/-- A `say` followed by `end`, with a two-character text. -/
def abEndScript : List Instr := [.say "" "" "ab", .«end»]

/-- The spec's example script `[say("hi"), end]`. -/
def sayEndScript : List Instr := [.say "" "" "hi", .«end»]

/-- The spec's duplicated-label example: label `A` at offsets 0 and 7,
label `B` at offset 3. -/
def exampleLabelScript : List Instr :=
  [.label "A", .wait none, .wait none, .label "B",
   .wait none, .wait none, .wait none, .label "A"]

/-- An engine holding two pending typewriter reveal chains, as left
behind by a `say` replaced mid-reveal by a second `say`. -/
def twoTimerEngine : Engine :=
  { initialEngine with
      timers := [⟨16, 0, .tick "ab" 1 false false 0⟩,
                 ⟨16, 1, .tick "cd" 1 false false 1⟩],
      seq := 2 }

/-- An engine in `Awaiting-Advance` position of a `say`/`choice` script:
the `say` at offset 0 has been fetched (`pc = 1`) and is about to
execute. -/
def sayChoiceEngine : Engine :=
  { initialEngine with
      script := [.say "" "" "hi", .choice [⟨"yes", "lbl"⟩]],
      pc := 1,
      running := true }

/-- A stopped-engine candidate holding one pending auto-advance timer. -/
def oneTimerEngine : Engine :=
  { initialEngine with timers := [⟨5, 0, .next⟩], seq := 1 }

theorem popEarliest_single (x : TimerEntry) : popEarliest [x] = some (x, []) := rfl

theorem popEarliest_pair (x y : TimerEntry) (h : entryLt y x = false) :
    popEarliest [x, y] = some (x, [y]) := by
  simp [popEarliest, h]

theorem pumpStep_eq (f : Nat) (e : Engine) (t : TimerEntry) (rest : List TimerEntry)
    (h : popEarliest e.timers = some (t, rest)) :
    pumpStep f e = runSync f t.op { e with timers := rest, now := t.due } := by
  unfold pumpStep
  rw [h]

theorem pump_add (m n f : Nat) (e : Engine) :
    pump (m + n) f e = pump n f (pump m f e) := by
  induction m generalizing e with
  | zero => rw [Nat.zero_add]; rfl
  | succ m ih =>
    have h : m + 1 + n = (m + n) + 1 := by omega
    rw [h]
    show pump (m + n) f (pumpStep f e) = _
    rw [ih (pumpStep f e)]
    rfl

theorem oneChainFF (k : Nat) :
    ∀ (e : Engine) (d s : Nat) (t : String) (i g : Nat),
    e.timers = [⟨d, s, .tick t i false false g⟩] →
    t.length - i = k →
    ChainDone e (pump (k + 1) 4 e) g := by
  induction k with
  | zero =>
    intro e d s t i g htimers hk
    have hle : t.length ≤ i := Nat.sub_eq_zero_iff_le.mp hk
    have hpop : popEarliest e.timers = some (⟨d, s, .tick t i false false g⟩, []) := by
      rw [htimers]; exact popEarliest_single _
    show ChainDone e (pumpStep 4 e) g
    rw [pumpStep_eq 4 e _ _ hpop]
    have hrun : runSync 4 (.tick t i false false g) { e with timers := [], now := d } =
        { e with timers := [], now := d, cbFired := g :: e.cbFired, waitingForClick := true } := by
      simp [runSync, syncStep, hle]
    rw [hrun]
    unfold ChainDone
    simp
  | succ k ih =>
    intro e d s t i g htimers hk
    have hlt : i < t.length := by omega
    have hpop : popEarliest e.timers = some (⟨d, s, .tick t i false false g⟩, []) := by
      rw [htimers]; exact popEarliest_single _
    have hstep : pumpStep 4 e =
        { e with timers := [⟨d + 16, e.seq, .tick t (i + 1) false false g⟩],
                 seq := e.seq + 1, now := d, textContent := t.take (i + 1) } := by
      rw [pumpStep_eq 4 e _ _ hpop]
      simp [runSync, syncStep, Nat.not_le.mpr hlt, schedule]
    show ChainDone e (pump (k + 1) 4 (pumpStep 4 e)) g
    rw [hstep]
    exact ih _ (d + 16) e.seq t (i + 1) g rfl (by omega)


theorem twoChainFF (m : Nat) :
    ∀ (e : Engine) (d s0 s1 : Nat) (a b : String) (i j g0 g1 : Nat),
    e.timers = [⟨d, s0, .tick a i false false g0⟩, ⟨d, s1, .tick b j false false g1⟩] →
    s0 < s1 → s1 < e.seq → a.length - i = m →
    BothFired e (pump ((a.length - i + 1) + (b.length - j + 1)) 4 e) g0 g1 := by
  induction m with
  | zero =>
    intro e d s0 s1 a b i j g0 g1 htimers hs01 hs1 hk
    have hle : a.length ≤ i := Nat.sub_eq_zero_iff_le.mp hk
    have hns : ¬ s1 < s0 := by omega
    have hpop : popEarliest e.timers =
        some (⟨d, s0, .tick a i false false g0⟩, [⟨d, s1, .tick b j false false g1⟩]) := by
      rw [htimers]
      exact popEarliest_pair _ _ (by simp [entryLt, hns])
    have hstep1 : pumpStep 4 e =
        { e with timers := [⟨d, s1, .tick b j false false g1⟩], now := d,
                 cbFired := g0 :: e.cbFired, waitingForClick := true } := by
      rw [pumpStep_eq 4 e ⟨d, s0, .tick a i false false g0⟩
            [⟨d, s1, .tick b j false false g1⟩] hpop]
      simp [runSync, syncStep, hle]
    rw [hk, show (0 + 1) + (b.length - j + 1) = 1 + (b.length - j + 1) from by omega]
    rw [pump_add 1 (b.length - j + 1) 4 e]
    rw [show pump 1 4 e = pumpStep 4 e from rfl, hstep1]
    have h2 := oneChainFF (b.length - j)
      { e with timers := [⟨d, s1, .tick b j false false g1⟩], now := d,
               cbFired := g0 :: e.cbFired, waitingForClick := true }
      d s1 b j g1 rfl rfl
    obtain ⟨ht, hcb, hw, hp, hr, _, _⟩ := h2
    exact ⟨Or.inr hcb, ht, hw, hp, hr⟩
  | succ m ih =>
    intro e d s0 s1 a b i j g0 g1 htimers hs01 hs1 hk
    have hlt : i < a.length := by omega
    have hns : ¬ s1 < s0 := by omega
    have hpop : popEarliest e.timers =
        some (⟨d, s0, .tick a i false false g0⟩, [⟨d, s1, .tick b j false false g1⟩]) := by
      rw [htimers]
      exact popEarliest_pair _ _ (by simp [entryLt, hns])
    have hstep1 : pumpStep 4 e =
        { e with timers := [⟨d, s1, .tick b j false false g1⟩,
                            ⟨d + 16, e.seq, .tick a (i + 1) false false g0⟩],
                 seq := e.seq + 1, now := d, textContent := a.take (i + 1) } := by
      rw [pumpStep_eq 4 e ⟨d, s0, .tick a i false false g0⟩
            [⟨d, s1, .tick b j false false g1⟩] hpop]
      simp [runSync, syncStep, Nat.not_le.mpr hlt, schedule]
    have hpop2 : popEarliest [(⟨d, s1, .tick b j false false g1⟩ : TimerEntry),
                              ⟨d + 16, e.seq, .tick a (i + 1) false false g0⟩] =
        some (⟨d, s1, .tick b j false false g1⟩,
              [⟨d + 16, e.seq, .tick a (i + 1) false false g0⟩]) :=
      popEarliest_pair _ _ (by simp [entryLt])
    by_cases hj : b.length ≤ j
    · -- B's callback fires at the second event, then chain A finishes alone
      have hstep2 : pumpStep 4 (pumpStep 4 e) =
          { e with timers := [⟨d + 16, e.seq, .tick a (i + 1) false false g0⟩],
                   seq := e.seq + 1, now := d, textContent := a.take (i + 1),
                   cbFired := g1 :: e.cbFired, waitingForClick := true } := by
        rw [hstep1,
            pumpStep_eq 4
              { e with timers := [⟨d, s1, .tick b j false false g1⟩,
                                  ⟨d + 16, e.seq, .tick a (i + 1) false false g0⟩],
                       seq := e.seq + 1, now := d, textContent := a.take (i + 1) }
              ⟨d, s1, .tick b j false false g1⟩
              [⟨d + 16, e.seq, .tick a (i + 1) false false g0⟩] hpop2]
        simp [runSync, syncStep, hj]
      rw [hk, Nat.sub_eq_zero_iff_le.mpr hj,
          show (m + 1 + 1) + (0 + 1) = 2 + (m + 1) from by omega]
      rw [pump_add 2 (m + 1) 4 e]
      rw [show pump 2 4 e = pumpStep 4 (pumpStep 4 e) from rfl, hstep2]
      have h2 := oneChainFF m
        { e with timers := [⟨d + 16, e.seq, .tick a (i + 1) false false g0⟩],
                 seq := e.seq + 1, now := d, textContent := a.take (i + 1),
                 cbFired := g1 :: e.cbFired, waitingForClick := true }
        (d + 16) e.seq a (i + 1) g0 rfl (by omega)
      obtain ⟨ht, hcb, hw, hp, hr, _, _⟩ := h2
      exact ⟨Or.inl hcb, ht, hw, hp, hr⟩
    · -- both chains advance one tick; the invariant is restored at due time d + 16
      have hjlt : j < b.length := Nat.not_le.mp hj
      have hstep2 : pumpStep 4 (pumpStep 4 e) =
          { e with timers := [⟨d + 16, e.seq, .tick a (i + 1) false false g0⟩,
                              ⟨d + 16, e.seq + 1, .tick b (j + 1) false false g1⟩],
                   seq := e.seq + 2, now := d, textContent := b.take (j + 1) } := by
        rw [hstep1,
            pumpStep_eq 4
              { e with timers := [⟨d, s1, .tick b j false false g1⟩,
                                  ⟨d + 16, e.seq, .tick a (i + 1) false false g0⟩],
                       seq := e.seq + 1, now := d, textContent := a.take (i + 1) }
              ⟨d, s1, .tick b j false false g1⟩
              [⟨d + 16, e.seq, .tick a (i + 1) false false g0⟩] hpop2]
        simp [runSync, syncStep, Nat.not_le.mpr hjlt, schedule]
      rw [hk, show (m + 1 + 1) + (b.length - j + 1) =
            2 + ((a.length - (i + 1) + 1) + (b.length - (j + 1) + 1)) from by omega]
      rw [pump_add 2 ((a.length - (i + 1) + 1) + (b.length - (j + 1) + 1)) 4 e]
      rw [show pump 2 4 e = pumpStep 4 (pumpStep 4 e) from rfl, hstep2]
      have h2 := ih
        { e with timers := [⟨d + 16, e.seq, .tick a (i + 1) false false g0⟩,
                            ⟨d + 16, e.seq + 1, .tick b (j + 1) false false g1⟩],
                 seq := e.seq + 2, now := d, textContent := b.take (j + 1) }
        (d + 16) e.seq (e.seq + 1) a b (i + 1) (j + 1) g0 g1 rfl (by omega)
        (by show e.seq + 1 < e.seq + 2; omega) (by omega)
      obtain ⟨hor, ht, hw, hp, hr⟩ := h2
      exact ⟨hor, ht, hw, hp, hr⟩



theorem oneChainChoice (k : Nat) :
    ∀ (e : Engine) (d s : Nat) (t : String) (i g : Nat) (he : Bool) (cs : List ChoiceItem),
    e.timers = [⟨d, s, .tick t i true he g⟩] →
    e.running = true → e.script.get? e.pc = some (.choice cs) →
    t.length - i = k →
    ChoiceEntered e (pump (k + 1) 9 e) cs g := by
  induction k with
  | zero =>
    intro e d s t i g he cs htimers hrun hscript hk
    have hle : t.length ≤ i := Nat.sub_eq_zero_iff_le.mp hk
    have hlt : e.pc < e.script.length := (List.get?_eq_some.mp hscript).1
    have hget : ∀ (hh : e.pc < e.script.length), e.script[e.pc] = Instr.choice cs := by
      intro hh
      have h2 : e.script[e.pc]? = some (Instr.choice cs) := by
        rw [← List.get?_eq_getElem?]; exact hscript
      have h3 : e.script[e.pc]? = some e.script[e.pc] := List.getElem?_eq_getElem hh
      rw [h3] at h2
      exact Option.some_inj.mp h2
    show ChoiceEntered e (pumpStep 9 e) cs g
    rw [pumpStep_eq 9 e ⟨d, s, .tick t i true he g⟩ []
          (by rw [htimers]; exact popEarliest_single _)]
    have hrun9 : runSync 9 (.tick t i true he g) { e with timers := [], now := d } =
        { e with timers := [], now := d, cbFired := g :: e.cbFired,
                 pc := e.pc + 1, choicesShown := cs } := by
      simp [runSync, syncStep, hle, hrun, Nat.not_le.mpr hlt, hget, cmdChoice]
    rw [hrun9]
    unfold ChoiceEntered
    simp [hrun]
  | succ k ih =>
    intro e d s t i g he cs htimers hrun hscript hk
    have hlt : i < t.length := by omega
    have hstep : pumpStep 9 e =
        { e with timers := [⟨d + 16, e.seq, .tick t (i + 1) true he g⟩],
                 seq := e.seq + 1, now := d, textContent := t.take (i + 1) } := by
      rw [pumpStep_eq 9 e ⟨d, s, .tick t i true he g⟩ []
            (by rw [htimers]; exact popEarliest_single _)]
      simp [runSync, syncStep, Nat.not_le.mpr hlt, schedule]
    show ChoiceEntered e (pump (k + 1) 9 (pumpStep 9 e)) cs g
    rw [hstep]
    exact ih _ (d + 16) e.seq t (i + 1) g he cs rfl hrun hscript (by omega)



theorem strLength_pos (t : String) (h : t ≠ "") : 0 < t.length := by
  cases t with
  | mk data =>
    cases data with
    | nil => simp at h
    | cons c cs => simp [String.length]

theorem runSync_more (f : Nat) (op op' : SyncOp) (e e' : Engine)
    (h : syncStep op e = (e', some op')) :
    runSync (f + 1) op e = runSync f op' e' := by
  show (match syncStep op e with
        | (x, none) => x
        | (x, some o) => runSync f o x) = _
  rw [h]

/-- C6: executing a `say` whose next instruction is a `choice` and
pumping exactly the reveal's tick timers lands in Awaiting-Choice. -/
theorem c6_say_then_choice_auto (e : Engine) (who nm t : String) (cs : List ChoiceItem)
    (hrun : e.running = true) (htimers : e.timers = [])
    (hscript : e.script.get? e.pc = some (.choice cs)) :
    ChoiceEntered e (pump t.length 9 (runSync 9 (.exec (.say who nm t)) e)) cs e.nextGen := by
  have hlt : e.pc < e.script.length := (List.get?_eq_some.mp hscript).1
  have hget : ∀ (hh : e.pc < e.script.length), e.script[e.pc] = Instr.choice cs := by
    intro hh
    have h2 : e.script[e.pc]? = some (Instr.choice cs) := by
      rw [← List.get?_eq_getElem?]; exact hscript
    have h3 : e.script[e.pc]? = some e.script[e.pc] := List.getElem?_eq_getElem hh
    rw [h3] at h2
    exact Option.some_inj.mp h2
  have hscript2 : e.script[e.pc]? = some (Instr.choice cs) := by
    rw [← List.get?_eq_getElem?]; exact hscript
  have hexec : syncStep (.exec (.say who nm t)) e =
      ({ e with nameLabel := sayName who nm e, nextGen := e.nextGen + 1,
                choicesShown := [], textContent := "" },
       some (.tick t 0 true false e.nextGen)) := by
    simp [syncStep, cmdSay, typeText, hscript2]
  rw [runSync_more 8 _ _ _ _ hexec]
  by_cases ht : t = ""
  · subst ht
    have hdone : runSync 8 (.tick "" 0 true false e.nextGen)
        { e with nameLabel := sayName who nm e, nextGen := e.nextGen + 1,
                 choicesShown := [], textContent := "" } =
        { e with nameLabel := sayName who nm e, nextGen := e.nextGen + 1,
                 textContent := "", cbFired := e.nextGen :: e.cbFired,
                 pc := e.pc + 1, choicesShown := cs } := by
      simp [runSync, syncStep, hrun, Nat.not_le.mpr hlt, hget, cmdChoice]
    rw [hdone]
    unfold ChoiceEntered
    simp [pump, hrun, htimers]
  · have hlen : 0 < t.length := strLength_pos t ht
    have hfirst : runSync 8 (.tick t 0 true false e.nextGen)
        { e with nameLabel := sayName who nm e, nextGen := e.nextGen + 1,
                 choicesShown := [], textContent := "" } =
        { e with nameLabel := sayName who nm e, nextGen := e.nextGen + 1,
                 choicesShown := [], textContent := t.take 1,
                 timers := [⟨e.now + 16, e.seq, .tick t 1 true false e.nextGen⟩],
                 seq := e.seq + 1 } := by
      simp [runSync, syncStep, Nat.not_le.mpr hlen, schedule, htimers]
    rw [hfirst]
    have h2 := oneChainChoice (t.length - 1)
      { e with nameLabel := sayName who nm e, nextGen := e.nextGen + 1,
               choicesShown := [], textContent := t.take 1,
               timers := [⟨e.now + 16, e.seq, .tick t 1 true false e.nextGen⟩],
               seq := e.seq + 1 }
      (e.now + 16) e.seq t 1 e.nextGen false cs rfl hrun hscript (by omega)
    rw [show t.length = (t.length - 1) + 1 from by omega]
    obtain ⟨h1, h2', h3, h4, h5, h6⟩ := h2
    exact ⟨h1, h2', h3, h4, h5, h6⟩

/-- C6 witness. -/
theorem c6_witness :
    sayChoiceEngine.running = true ∧ sayChoiceEngine.timers = [] ∧
    sayChoiceEngine.script.get? sayChoiceEngine.pc = some (.choice [⟨"yes", "lbl"⟩]) ∧
    ChoiceEntered sayChoiceEngine
      (pump ("hi".length) 9 (runSync 9 (.exec (.say "" "" "hi")) sayChoiceEngine))
      [⟨"yes", "lbl"⟩] sayChoiceEngine.nextGen :=
  ⟨rfl, rfl, rfl,
   c6_say_then_choice_auto sayChoiceEngine "" "" "hi" [⟨"yes", "lbl"⟩] rfl rfl rfl⟩

theorem lookup_indexLabelsAux (s : List Instr) :
    ∀ (i : Nat) (acc : List (String × Nat)) (l : String), l ≠ "" →
    lookupLabel (indexLabelsAux s i acc) l =
      (match lastLabelOffsetAux s i l with
       | some k => some k
       | none => lookupLabel acc l) := by
  induction s with
  | nil => intro i acc l _; rfl
  | cons c rest ih =>
    intro i acc l hl
    show lookupLabel (indexLabelsAux rest (i + 1) _) l = _
    rw [ih (i + 1) _ l hl]
    cases hres : lastLabelOffsetAux rest (i + 1) l with
    | some k =>
      show (some k : Option Nat) =
        (match lastLabelOffsetAux (c :: rest) i l with
         | some k => some k
         | none => lookupLabel acc l)
      unfold lastLabelOffsetAux
      rw [hres]
    | none =>
      show lookupLabel
          (match c with
           | Instr.label id => if id = "" then acc else (id, i) :: acc
           | _ => acc) l =
        (match lastLabelOffsetAux (c :: rest) i l with
         | some k => some k
         | none => lookupLabel acc l)
      unfold lastLabelOffsetAux
      rw [hres]
      cases c with
      | label id =>
        by_cases hid : id = ""
        · subst hid
          have hne : (Instr.label "" = Instr.label l) = False := by
            simp
            intro h
            exact hl h.symm
          simp [hne]
        · simp only [if_neg hid]
          by_cases hidl : id = l
          · subst hidl
            simp [lookupLabel, lookupStr]
          · have hne : (Instr.label id = Instr.label l) = False := by simp [hidl]
            simp [hne, lookupLabel, lookupStr, hidl]
      | say who nm t => simp
      | bg sh src w => simp
      | char id action st sd w => simp
      | choice cs => simp
      | wait ms => simp
      | jump tgt => simp
      | bgm action id lp => simp
      | «end» => simp
      | unknown => simp
/-- C3: for a truthy label id, the label index resolves to the offset of
the last `label` instruction with that id, and `jumpToLabel` then sets
`pc` to the offset immediately after it (last-write-wins). -/
theorem c3_label_index_last_wins (s : List Instr) (l : String) (hl : l ≠ "") :
    lookupLabel (indexLabels s) l = lastLabelOffset s l ∧
    ∀ (e : Engine) (k : Nat), lastLabelOffset s l = some k →
      (jumpToLabel l { e with labels := indexLabels s }).pc = k + 1 := by
  have h := lookup_indexLabelsAux s 0 [] l hl
  have h1 : lookupLabel (indexLabels s) l = lastLabelOffset s l := by
    unfold indexLabels lastLabelOffset
    rw [h]
    cases lastLabelOffsetAux s 0 l <;> rfl
  refine ⟨h1, ?_⟩
  intro e k hk
  have h2 : lookupLabel (Engine.labels { e with labels := indexLabels s }) l = some k := by
    show lookupLabel (indexLabels s) l = some k
    rw [h1]
    unfold lastLabelOffset at hk ⊢
    rw [hk]
  unfold jumpToLabel
  rw [h2]

/-- C3 witness: the spec's example `{A→0, B→3, A→7}` resolves a jump to
`A` to `pc = 8`. -/
theorem c3_witness :
    ("A" : String) ≠ "" ∧ lastLabelOffset exampleLabelScript "A" = some 7 ∧
    (jumpToLabel "A" { initialEngine with labels := indexLabels exampleLabelScript }).pc = 8 :=
  ⟨by decide, by decide,
   (c3_label_index_last_wins exampleLabelScript "A" (by decide)).2 initialEngine 7 (by decide)⟩

/-- C5: executing `jump` to a truthy label id absent from the label
index only appends a warning — `pc` and every other field are unchanged
— and the chain continues with `next`, i.e. the instruction following
the jump. -/
theorem c5_jump_unknown_label (e : Engine) (tgt : String) (h1 : tgt ≠ "")
    (h2 : lookupLabel e.labels tgt = none) :
    syncStep (.exec (.jump tgt)) e =
      ({ e with warns := ("Label not found: " ++ tgt) :: e.warns }, some .next) := by
  simp [syncStep, jumpToLabel, h1, h2]

/-- C5 witness. -/
theorem c5_witness :
    ("x" : String) ≠ "" ∧ lookupLabel initialEngine.labels "x" = none ∧
    syncStep (.exec (.jump "x")) initialEngine =
      ({ initialEngine with warns := ("Label not found: " ++ "x") :: initialEngine.warns },
       some .next) :=
  ⟨by decide, by decide, c5_jump_unknown_label initialEngine "x" (by decide) (by decide)⟩

/-- C7: a pending auto-advance timer (`() => this.next()`) that fires
after `stop()` is a no-op: the engine is unchanged except that the
timer entry is consumed, because `next()` checks the running flag
first. -/
theorem c7_timer_noop_after_stop (e : Engine) (f d s : Nat) (ts : List TimerEntry)
    (h : popEarliest (stop e).timers = some (⟨d, s, .next⟩, ts)) :
    pumpStep f (stop e) = { stop e with timers := ts, now := d } := by
  unfold pumpStep
  rw [h]
  cases f with
  | zero => rfl
  | succ f' =>
    show (match syncStep .next { stop e with timers := ts, now := d } with
          | (x, none) => x
          | (x, some o) => runSync f' o x) = _
    simp [syncStep, stop]

/-- C7 witness. -/
theorem c7_witness :
    popEarliest (stop oneTimerEngine).timers = some (⟨5, 0, .next⟩, []) ∧
    pumpStep 8 (stop oneTimerEngine) = { stop oneTimerEngine with timers := [], now := 5 } :=
  ⟨by decide, c7_timer_noop_after_stop oneTimerEngine 8 5 0 [] (by decide)⟩

/-- C8: a `bgm play` whose playback attempt rejects behaves exactly like
a successful one except for the logged warning: same fields, same single
`next` timer with the same fixed 100 ms settle delay, no exception
escapes and execution is neither halted nor additionally delayed. -/
theorem c8_bgm_play_failure_nonfatal (e : Engine) (id : String) (lp : Bool) :
    (syncStep (.exec (.bgm "play" id lp)) { e with audioFails := true }).1 =
      { (syncStep (.exec (.bgm "play" id lp)) { e with audioFails := false }).1 with
          warns := "BGM play failed" :: e.warns,
          bgmPaused := e.bgmPaused,
          audioFails := true } ∧
    (syncStep (.exec (.bgm "play" id lp)) { e with audioFails := true }).2 =
      (syncStep (.exec (.bgm "play" id lp)) { e with audioFails := false }).2 ∧
    (syncStep (.exec (.bgm "play" id lp)) { e with audioFails := true }).1.timers =
      e.timers ++ [⟨e.now + 100, e.seq, .next⟩] ∧
    (syncStep (.exec (.bgm "play" id lp)) { e with audioFails := true }).1.running = e.running ∧
    (syncStep (.exec (.bgm "play" id lp)) { e with audioFails := true }).1.pc = e.pc ∧
    (syncStep (.exec (.bgm "play" id lp)) { e with audioFails := false }).1.warns = e.warns := by
  refine ⟨?_, ?_, ?_, ?_, ?_, ?_⟩ <;> simp [syncStep, cmdBgm, tryPlay, schedule]
theorem schedule_pc (d : Nat) (op : SyncOp) (e : Engine) : (schedule d op e).pc = e.pc := rfl

theorem showChar_pc (id st sd : String) (e : Engine) : (showChar id st sd e).pc = e.pc := by
  unfold showChar
  split <;> rfl

theorem hideChar_pc (id : String) (e : Engine) : (hideChar id e).pc = e.pc := by
  unfold hideChar
  split
  · split <;> rfl
  · rfl

theorem setCharState_pc (id st : String) (e : Engine) : (setCharState id st e).pc = e.pc := by
  unfold setCharState
  split <;> rfl

/-- C9: no single link of the engine's control flow decreases `pc`
except the two explicit jump sites (executing a `jump` instruction,
selecting a choice whose `goto` jumps): every other operation leaves
`pc` unchanged or increments it. -/
theorem c9_pc_never_decreases (op : SyncOp) (e : Engine) :
    e.pc ≤ (syncStep op e).1.pc ∨ isExplicitJump op = true := by
  cases op with
  | next =>
    left
    simp only [syncStep]
    split
    · exact Nat.le_refl _
    · split
      · exact Nat.le_refl _
      · simp
  | exec cmd =>
    cases cmd with
    | say who nm t => left; simp [syncStep, cmdSay, typeText]
    | bg sh src w =>
      left
      cases sh <;> by_cases h : src = "" <;> simp [syncStep, cmdBg, schedule, h]
    | char id action st sd w =>
      left
      by_cases hid : id = ""
      · simp [syncStep, cmdChar, hid]
      · simp only [syncStep, cmdChar, if_neg hid]
        split_ifs <;> simp [schedule_pc, showChar_pc, hideChar_pc, setCharState_pc]
    | choice cs => left; simp [syncStep, cmdChoice]
    | wait ms => left; simp [syncStep, schedule]
    | label id => left; simp [syncStep]
    | jump tgt => right; rfl
    | bgm action id lp =>
      left
      by_cases ha : (if action = "" then "play" else action) = "play" <;>
        cases haf : e.audioFails <;>
          simp [syncStep, cmdBgm, tryPlay, schedule, ha, haf] <;> split_ifs <;> simp
    | «end» => left; simp [syncStep, onEnd]
    | unknown => left; simp [syncStep]
  | click =>
    left
    simp only [syncStep]
    split <;> simp
  | selectChoice i => right; rfl
  | tick t i hc he g =>
    left
    simp only [syncStep]
    split <;> simp [schedule]
  | cb hc he g =>
    left
    simp only [syncStep]
    split_ifs <;> simp
  | removeChar id =>
    left
    cases hres : lookupStr e.chars id <;> simp [syncStep, hres]

/-- C10: with an explicit `0` in `wait.ms` or in `bg`/`char`.`wait`, the
scheduled auto-advance delay is the default (500 for `wait`, the
configured transition delay for `bg`/`char`), not 0, because the `||`
fallback triggers on any falsy value. -/
theorem c10_falsy_delay_defaults (e : Engine) (sh : Option Bool) (src id st sd : String)
    (hid : id ≠ "") (hchars : lookupStr e.chars id = none) :
    (syncStep (.exec (.wait (some 0))) e).1.timers
        = e.timers ++ [⟨e.now + 500, e.seq, .next⟩] ∧
    (syncStep (.exec (.bg sh src (some 0))) e).1.timers
        = e.timers ++ [⟨e.now + e.transition, e.seq, .next⟩] ∧
    (syncStep (.exec (.char id "show" st sd (some 0))) e).1.timers
        = e.timers ++ [⟨e.now + e.transition, e.seq, .next⟩] ∧
    (syncStep (.exec (.char id "hide" st sd (some 0))) e).1.timers
        = e.timers ++ [⟨e.now + e.transition, e.seq, .next⟩] ∧
    (syncStep (.exec (.char id "setState" st sd (some 0))) e).1.timers
        = e.timers ++ [⟨e.now + e.transition, e.seq, .next⟩] := by
  refine ⟨?_, ?_, ?_, ?_, ?_⟩
  · simp [syncStep, schedule, jsOrNat]
  · cases sh <;> by_cases h : src = "" <;> simp [syncStep, cmdBg, schedule, jsOrNat, h]
  · cases hres : lookupStr e.resources.characters id <;>
      simp [syncStep, cmdChar, hid, showChar, hres, schedule, jsOrNat]
  · simp [syncStep, cmdChar, hid, hideChar, hchars, schedule, jsOrNat]
  · cases hres : lookupStr e.resources.characters id <;>
      simp [syncStep, cmdChar, hid, setCharState, hres, schedule, jsOrNat]

/-- C10 witness. -/
theorem c10_witness :
    ("liz" : String) ≠ "" ∧ lookupStr initialEngine.chars "liz" = none ∧
    (syncStep (.exec (.wait (some 0))) initialEngine).1.timers
        = initialEngine.timers ++ [⟨initialEngine.now + 500, initialEngine.seq, .next⟩] ∧
    (syncStep (.exec (.bg none "" (some 0))) initialEngine).1.timers
        = initialEngine.timers ++
            [⟨initialEngine.now + initialEngine.transition, initialEngine.seq, .next⟩] ∧
    (syncStep (.exec (.char "liz" "show" "" "" (some 0))) initialEngine).1.timers
        = initialEngine.timers ++
            [⟨initialEngine.now + initialEngine.transition, initialEngine.seq, .next⟩] :=
  ⟨by decide, by decide,
   (c10_falsy_delay_defaults initialEngine none "" "liz" "" "" (by decide) (by decide)).1,
   (c10_falsy_delay_defaults initialEngine none "" "liz" "" "" (by decide) (by decide)).2.1,
   (c10_falsy_delay_defaults initialEngine none "" "liz" "" "" (by decide) (by decide)).2.2.1⟩
/-- C1 counterexample: start `[say "ab", say "cd"]`, click while the
first reveal is in flight (which runs the second `say`), then pump the
event loop to exhaustion.  Reveal generation 0 is the first `say`'s
`_typeText` invocation, generation 1 the second's.  Both completion
callbacks fire (`cbFired = [1, 0]`), so the original callback does fire
after the replacement — the claim's "never fires" is false — and the old
timer chain was still pending right after the new `say` started
(`timers.length = 2`). -/
theorem c1_counterexample :
    (click 8 (start 8 replaceScript initialEngine)).timers.length = 2 ∧
    (pump 4 8 (click 8 (start 8 replaceScript initialEngine))).cbFired = [1, 0] := by
  decide

/-- C1 amended: starting a new typewriter reveal does not cancel an
in-flight one.  Whenever two reveal chains are pending (as a `say`
executed mid-reveal leaves them), pumping the event loop to exhaustion
fires *both* completion callbacks, each exactly once — the original one
included, after its own remaining ticks. -/
theorem c1_amended_no_cancellation (e : Engine) (d s0 s1 : Nat) (a b : String)
    (i j g0 g1 : Nat)
    (htimers : e.timers = [⟨d, s0, .tick a i false false g0⟩,
                           ⟨d, s1, .tick b j false false g1⟩])
    (hs01 : s0 < s1) (hs1 : s1 < e.seq) :
    BothFired e (pump ((a.length - i + 1) + (b.length - j + 1)) 4 e) g0 g1 :=
  twoChainFF (a.length - i) e d s0 s1 a b i j g0 g1 htimers hs01 hs1 rfl

/-- C1 amended witness. -/
theorem c1_amended_witness :
    twoTimerEngine.timers = [⟨16, 0, .tick "ab" 1 false false 0⟩,
                             ⟨16, 1, .tick "cd" 1 false false 1⟩] ∧
    (0 : Nat) < 1 ∧ 1 < twoTimerEngine.seq ∧
    BothFired twoTimerEngine
      (pump ((("ab".length - 1) + 1) + (("cd".length - 1) + 1)) 4 twoTimerEngine) 0 1 :=
  ⟨rfl, by decide, by decide,
   c1_amended_no_cancellation twoTimerEngine 16 0 1 "ab" "cd" 1 1 0 1 rfl
     (by decide) (by decide)⟩

/-- C2 (code bug): an advance signal (container click) received while a
text reveal is still in progress is *not* ignored.  After starting
`[say "ab", end]` the reveal is mid-flight (`waitingForClick = false`,
one character shown, tick timer pending), yet a click runs `next()` —
which checks only the running flag, never `_waitingForClick` — and
executes the `end` instruction: `running` drops to `false`, `pc`
advances to 2 and the end-state text replaces the reveal. -/
theorem c2_advance_mid_reveal_executes :
    (start 8 abEndScript initialEngine).waitingForClick = false ∧
    (start 8 abEndScript initialEngine).textContent = "a" ∧
    (start 8 abEndScript initialEngine).pc = 1 ∧
    (start 8 abEndScript initialEngine).timers.length = 1 ∧
    (start 8 abEndScript initialEngine).running = true ∧
    (click 8 (start 8 abEndScript initialEngine)).running = false ∧
    (click 8 (start 8 abEndScript initialEngine)).pc = 2 ∧
    (click 8 (start 8 abEndScript initialEngine)).textContent = "[游戏结束]" := by
  decide

/-- C4: on `[say "hi", end]`, after the reveal's two ticks the engine
is in Awaiting-Advance (`waitingForClick`, running, `pc` at the `end`
instruction, no pending timers, no choices); one click executes `end`
(run Ended: `running = false`, end-state text shown, `pc = 2`); a second
click leaves the state completely unchanged. -/
theorem c4_say_end_advance_twice :
    (pump 2 8 (start 8 sayEndScript initialEngine)).waitingForClick = true ∧
    (pump 2 8 (start 8 sayEndScript initialEngine)).running = true ∧
    (pump 2 8 (start 8 sayEndScript initialEngine)).pc = 1 ∧
    (pump 2 8 (start 8 sayEndScript initialEngine)).timers = [] ∧
    (pump 2 8 (start 8 sayEndScript initialEngine)).choicesShown = [] ∧
    (click 8 (pump 2 8 (start 8 sayEndScript initialEngine))).running = false ∧
    (click 8 (pump 2 8 (start 8 sayEndScript initialEngine))).pc = 2 ∧
    (click 8 (pump 2 8 (start 8 sayEndScript initialEngine))).textContent = "[游戏结束]" ∧
    (click 8 (click 8 (pump 2 8 (start 8 sayEndScript initialEngine)))) =
      (click 8 (pump 2 8 (start 8 sayEndScript initialEngine))) := by
  decide
end Gal
